import Mathlib

/-!
Verification of the Wikipedia-Template-Parser extraction engine
(`wikipedia_template_parser/__init__.py`), shallowly embedded in Lean.

Python strings are embedded as `List Char`; Python dicts (which keep
insertion order, have unique keys and overwrite in place) as ordered
association lists; Python floats as exact rationals `ℚ` (the source only
adds, divides by `60`/`3600` and negates, and stringifies the result;
no claim depends on IEEE rounding, so the decimal values are carried
exactly); fallible code returns `Except`/`Option`.
-/

set_option autoImplicit false
set_option maxHeartbeats 1000000

namespace WTP

/-- Characters of a Python string. -/
abbrev Str := List Char

/-- View of a Lean string literal as the embedded character list. -/
def str (s : String) : Str := s.data

/-- Python whitespace characters (the default set of `str.split` / `str.strip`). -/
def pyWs (c : Char) : Bool :=
  c == ' ' || c == '\t' || c == '\n' || c == '\r' || c == '\x0b' || c == '\x0c'

/-- Python `s.strip()`: drop leading and trailing whitespace. -/
def pyStrip (l : Str) : Str :=
  ((l.dropWhile pyWs).reverse.dropWhile pyWs).reverse

/-- Python `s.strip(cs)`: drop leading and trailing characters drawn from `cs`. -/
def pyStripChars (cs : Str) (l : Str) : Str :=
  ((l.dropWhile (cs.contains ·)).reverse.dropWhile (cs.contains ·)).reverse

/-- Python `s.split("|")` (single-character separator, empty parts kept). -/
def splitPipe : Str → List Str
  | [] => [[]]
  | c :: r =>
    if c = '|' then [] :: splitPipe r
    else
      match splitPipe r with
      | s :: rest => (c :: s) :: rest
      | [] => [[c]]

/-- Python `s.split("=", 1)`: split at the first `'='`; `none` when there is no
`'='` (the source's `ValueError` branch). -/
def splitEq1 : Str → Option (Str × Str)
  | [] => none
  | c :: r =>
    if c = '=' then some ([], r)
    else (splitEq1 r).map (fun p => (c :: p.1, p.2))

/-- Ordered string-keyed dictionary (Python `dict` with insertion order). -/
abbrev Dict := List (Str × Str)

/-- Python `d[k] = v` on a dict with unique keys: overwrite in place, else append. -/
def dictInsert : Dict → Str → Str → Dict
  | [], k, v => [(k, v)]
  | kv :: rest, k, v => if kv.1 = k then (k, v) :: rest else kv :: dictInsert rest k v

/-- Python `d[k]` lookup (first — unique — matching key). -/
def dictGet : Dict → Str → Option Str
  | [], _ => none
  | kv :: rest, k => if kv.1 = k then some kv.2 else dictGet rest k

/-- The synthesized key `'anon_{}'.format(n)` for the n-th positional parameter. -/
def anonKey (n : ℕ) : Str := str "anon_" ++ (Nat.repr n).data

/-- The parameter-assignment loop of `data_from_templates` (lines 206–213 of the
source): each segment is split at its first `'='` into trimmed key and value; a
segment without `'='` increments the anonymous counter `c` and is stored under
`anon_<c+1>`. -/
def tokenizeData : List Str → ℕ → Dict → Dict
  | [], _, d => d
  | kv :: rest, c, d =>
    match splitEq1 kv with
    | some p => tokenizeData rest c (dictInsert d (pyStrip p.1) (pyStrip p.2))
    | none => tokenizeData rest (c + 1) (dictInsert d (anonKey (c + 1)) (pyStrip kv))

/-- Splitting an escaped template body into its name and parameter dictionary
(lines 203–213 of the source). -/
def tokenize (body : Str) : Str × Dict :=
  let segs := splitPipe body
  (pyStrip (segs.headD []), tokenizeData segs.tail 0 [])

/-- Reference form of the entries produced by `tokenizeData`, one per segment
in body order, with the anonymous counter threaded explicitly and each entry
tagged with whether it came from an anonymous (no-`=`) segment; used to state
and prove the ordering/contiguity facts about the tokenizer. -/
def segEntriesT : List Str → ℕ → List (Bool × Str × Str)
  | [], _ => []
  | seg :: rest, c =>
    match splitEq1 seg with
    | some p => (false, pyStrip p.1, pyStrip p.2) :: segEntriesT rest c
    | none => (true, anonKey (c + 1), pyStrip seg) :: segEntriesT rest (c + 1)

/-- The key/value entries, in body order, with the provenance tag dropped. -/
def segEntries (segs : List Str) (c : ℕ) : List (Str × Str) :=
  (segEntriesT segs c).map (fun e => (e.2.1, e.2.2))

/-- The keys synthesized for the anonymous segments, in body order. -/
def anonKeySeq (segs : List Str) (c : ℕ) : List Str :=
  ((segEntriesT segs c).filter (·.1)).map (fun e => e.2.1)

/-! ### Link and reference normalizer (`clean_wiki_links`, `clean_ref`) -/

/-- One pass of `re.sub(r'\[\[([^\|\]]+)\]\]', r'\1', s)` (line 33 of the
source), written with a fuel argument (`fuel = length of the input` suffices,
since every step consumes at least one character).  A match is `[[`, then a
nonempty run of characters other than `|` and `]`, then `]]`; on failure the
scan restarts one character later, exactly as the regex engine does. -/
def sub1Go : ℕ → Str → Str
  | 0, l => l
  | _ + 1, [] => []
  | f + 1, c1 :: r1 =>
    if c1 = '[' then
      match r1 with
      | c2 :: r =>
        if c2 = '[' then
          let content := r.takeWhile (fun c => !(c == '|' || c == ']'))
          let rest := r.dropWhile (fun c => !(c == '|' || c == ']'))
          match content, rest with
          | _ :: _, ']' :: ']' :: r2 => content ++ sub1Go f r2
          | _, _ => c1 :: sub1Go f r1
        else c1 :: sub1Go f r1
      | [] => [c1]
    else c1 :: sub1Go f r1

/-- One pass of `re.sub(r'\[\[[^\|\]]+\|([^\]]+)\]\]', r'\1', s)` (line 35 of
the source): `[[`, a nonempty run without `|`/`]`, a `|`, a nonempty run
without `]` (the kept group), then `]]`. -/
def sub2Go : ℕ → Str → Str
  | 0, l => l
  | _ + 1, [] => []
  | f + 1, c1 :: r1 =>
    if c1 = '[' then
      match r1 with
      | c2 :: r =>
        if c2 = '[' then
          let tgt := r.takeWhile (fun c => !(c == '|' || c == ']'))
          let rest := r.dropWhile (fun c => !(c == '|' || c == ']'))
          match tgt, rest with
          | _ :: _, '|' :: r2 =>
            let grp := r2.takeWhile (fun c => !(c == ']'))
            let rest2 := r2.dropWhile (fun c => !(c == ']'))
            match grp, rest2 with
            | _ :: _, ']' :: ']' :: r3 => grp ++ sub2Go f r3
            | _, _ => c1 :: sub2Go f r1
          | _, _ => c1 :: sub2Go f r1
        else c1 :: sub2Go f r1
      | [] => [c1]
    else c1 :: sub2Go f r1

/-- `clean_wiki_links` (lines 26–36 of the source): strip `[[Page]]` first,
then `[[Page|displayed text]]`. -/
def clean_wiki_links (s : Str) : Str :=
  let s1 := sub1Go s.length s
  sub2Go s1.length s1

/-- `clean_ref` (lines 39–50 of the source) parses its argument as markup with
pyquery and drops every `ref` element, joining the surviving trimmed node
texts with single spaces.  Modelled on markup-free fragments only: on a
fragment containing neither a tag nor a character entity (no `<`, no `&`, and
none of the control whitespace an HTML parser may normalize) and not blank,
the markup tree is a single text node (§4.1: "Plain text nodes contribute
their trimmed text directly"), so `clean_ref` returns the fragment's text
stripped of surrounding whitespace.  Every concrete fragment a claim feeds it
is of this form, and the one universal statement that passes through
`clean_ref` — claim C8's amended idempotence — restricts its quantifier to
this domain via `cleanFragment`; the tree walk over actual markup (lines
45–49) is outside the verified domain. -/
def clean_ref (s : Str) : Str := pyStrip s

/-- Characters with no markup significance to the `clean_ref` parse: anything
but the tag opener `<`, the entity opener `&`, and the control whitespace
(`\r`, `\x0b`, `\x0c`) that an HTML parser may normalize. -/
def noMarkupChar (c : Char) : Bool :=
  !(c == '<' || c == '&' || c == '\r' || c == '\x0B' || c == '\x0C')

/-- A fragment on which the reference `clean_ref` markup parse is a single
text node: free of markup-significant characters and not blank. -/
def cleanFragment (l : Str) : Bool :=
  l.all noMarkupChar && !(pyStrip l).isEmpty

/-- The driver's normalization of a template body (lines 192 and 194 of the
source): `clean_ref` then `clean_wiki_links`. -/
def normalize (s : Str) : Str := clean_wiki_links (clean_ref s)

/-- Whether the string contains the two-character token `[[`. -/
def hasLL : Str → Bool
  | c1 :: c2 :: r => (c1 == '[' && c2 == '[') || hasLL (c2 :: r)
  | _ => false

/-! ### Coordinate resolver (`extract_data_from_coord`) -/

/-- Python `needle in hay` (substring test). -/
def containsSub (hay needle : Str) : Bool :=
  needle.isPrefixOf hay ||
    match hay with
    | [] => false
    | _ :: t => containsSub t needle

/-- The `optionalpars` list of the source (lines 84–91). -/
def optionalpars : List Str :=
  [str "dim", str "globe", str "region", str "scale",
   str "source", str "type", str "display"]

/-- The source's test `(op in v) or (op in k)` over all optional tokens
(lines 95–98): whether the entry is added to `todel`. -/
def hasTokKV (kv : Str × Str) : Bool :=
  optionalpars.any (fun op => containsSub kv.2 op || containsSub kv.1 op)

/-- The keys collected into `todel` (lines 93–98). -/
def todelKeys (d : Dict) : List Str := (d.filter hasTokKV).map (·.1)

/-- Deleting the `todel` keys from the template dict (lines 100–101). -/
def optStrip (d : Dict) : Dict :=
  d.filter (fun kv => !((todelKeys d).any (fun k => k == kv.1)))

/-- `anonpars`: the remaining entries whose key contains `'anon_'` (line 103),
in dict order. -/
def anonParsOf (d : Dict) : Dict :=
  (optStrip d).filter (fun kv => containsSub kv.1 (str "anon_"))

/-- Decimal digits to a natural number. -/
def digitsToNat (l : Str) : ℕ := l.foldl (fun n c => 10 * n + (c.toNat - 48)) 0

/-- Python `int(s)` on an optionally signed run of decimal digits, the only
integer forms reachable here (`int` also allows surrounding whitespace and
digit-group underscores, which no `anon_<n>` key produces). -/
def parsePyInt (s : Str) : Option ℤ :=
  match s with
  | '-' :: r => if !r.isEmpty && r.all Char.isDigit then some (-(digitsToNat r : ℤ)) else none
  | '+' :: r => if !r.isEmpty && r.all Char.isDigit then some ((digitsToNat r : ℤ)) else none
  | _ => if !s.isEmpty && s.all Char.isDigit then some ((digitsToNat s : ℤ)) else none

/-- The unsigned part of Python `float(s)`: digits with an optional decimal
point (`"41"`, `"9.2"`, `"5."`, `".5"`); at least one digit overall. -/
def parseUnsigned (s : Str) : Option ℚ :=
  match s.dropWhile Char.isDigit with
  | [] =>
    if (s.takeWhile Char.isDigit).isEmpty then none
    else some ((digitsToNat (s.takeWhile Char.isDigit) : ℚ))
  | '.' :: fp =>
    if fp.all Char.isDigit && !((s.takeWhile Char.isDigit).isEmpty && fp.isEmpty) then
      some ((digitsToNat (s.takeWhile Char.isDigit) : ℚ) +
        (digitsToNat fp : ℚ) / (10 : ℚ) ^ fp.length)
    else none
  | _ => none

/-- Python `float(s)` on plain decimal literals (optional sign, digits, at most
one decimal point) — the only numeric forms the coordinate template carries;
exponent forms, `inf`/`nan` and surrounding whitespace are out of scope.
`none` models the `ValueError` that `float` raises otherwise. -/
def parseFloat (s : Str) : Option ℚ :=
  match s with
  | '-' :: r => (parseUnsigned r).map (fun q => -q)
  | '+' :: r => parseUnsigned r
  | _ => parseUnsigned s

/-- `int(ap.strip('anon_'))` (line 105): strip the characters `a`,`n`,`o`,`_`
from both ends of the key, then parse the remainder as an integer. -/
def parseAnonIdx (k : Str) : Option ℤ := parsePyInt (pyStripChars (str "anon_") k)

/-- Integer-keyed ordered dictionary (the source stores the renumbered
positional parameters under `int` keys in the same Python dict; `int` keys can
never collide with the remaining string keys, so they form their own map). -/
abbrev ZDict := List (ℤ × Str)

/-- Python `d[i] = v` for the integer-keyed entries. -/
def zdictInsert : ZDict → ℤ → Str → ZDict
  | [], i, v => [(i, v)]
  | kv :: rest, i, v => if kv.1 = i then (i, v) :: rest else kv :: zdictInsert rest i v

/-- Python `d[i]` lookup for the integer-keyed entries. -/
def zdictGet : ZDict → ℤ → Option Str
  | [], _ => none
  | kv :: rest, i => if kv.1 = i then some kv.2 else zdictGet rest i

/-- The renumbering loop (lines 104–106): every `anon_<n>` entry is re-inserted
under the integer key `n`; `none` models the `ValueError` of `int()` on a key
whose stripped form is not an integer literal. -/
def buildPos : Dict → ZDict → Option ZDict
  | [], acc => some acc
  | kv :: rest, acc =>
    match parseAnonIdx kv.1 with
    | some i => buildPos rest (zdictInsert acc i kv.2)
    | none => none

/-- Python `min` on a list, `none` on the empty list (the `ValueError` of
line 110). -/
def listMin : List ℤ → Option ℤ
  | [] => none
  | x :: r => some (r.foldl min x)

/-- The errors the extraction can raise (uncaught Python exceptions). -/
inductive PErr where
  | intParse
  | minEmpty
  | keyError
  | floatParse
  deriving DecidableEq, Repr

/-- The resolved decimal coordinate pair; the source stores `str(deglat)` /
`str(deglong)` under `'lat'`/`'lon'`, modelled as the exact rationals. -/
structure CoordPair where
  lat : ℚ
  lon : ℚ
  deriving DecidableEq, Repr

instance exceptDecEq {ε α : Type} [DecidableEq ε] [DecidableEq α] :
    DecidableEq (Except ε α)
  | .ok a, .ok b => decidable_of_iff (a = b) (by simp)
  | .error a, .error b => decidable_of_iff (a = b) (by simp)
  | .ok _, .error _ => isFalse (fun h => Except.noConfusion h)
  | .error _, .ok _ => isFalse (fun h => Except.noConfusion h)

/-- `template[i]` for a renumbered position, `KeyError` when absent. -/
def getPos (pos : ZDict) (i : ℤ) : Except PErr Str :=
  match zdictGet pos i with
  | some v => .ok v
  | none => .error .keyError

/-- `float(value)`, `ValueError` when it does not parse. -/
def toFloat (s : Str) : Except PErr ℚ :=
  match parseFloat s with
  | some q => .ok q
  | none => .error .floatParse

/-- The arity dispatch and decimal conversion (lines 112–151): reads the
positional parameters laid out relative to `startpar` according to `parcount`
(defaults `0`/`''` otherwise), then
`deg = gg + mm/60 + ss/3600`, negated when the direction is exactly `"S"`
(latitude) or `"W"` (longitude). -/
def resolveArity (pos : ZDict) (parcount : ℕ) (startpar : ℤ) : Except PErr CoordPair := do
  let gglat ← toFloat (← getPos pos startpar)
  let t ←
    if parcount = 2 then do
      let gglong ← toFloat (← getPos pos (startpar + 1))
      pure ((0 : ℚ), (0 : ℚ), gglong, (0 : ℚ), (0 : ℚ), ([] : Str), ([] : Str))
    else if parcount = 4 then do
      let dirlat ← getPos pos (startpar + 1)
      let gglong ← toFloat (← getPos pos (startpar + 2))
      let dirlong ← getPos pos (startpar + 3)
      pure (0, 0, gglong, 0, 0, dirlat, dirlong)
    else if parcount = 6 then do
      let mmlat ← toFloat (← getPos pos (startpar + 1))
      let dirlat ← getPos pos (startpar + 2)
      let gglong ← toFloat (← getPos pos (startpar + 3))
      let mmlong ← toFloat (← getPos pos (startpar + 4))
      let dirlong ← getPos pos (startpar + 5)
      pure (mmlat, 0, gglong, mmlong, 0, dirlat, dirlong)
    else if parcount = 8 then do
      let mmlat ← toFloat (← getPos pos (startpar + 1))
      let sslat ← toFloat (← getPos pos (startpar + 2))
      let dirlat ← getPos pos (startpar + 3)
      let gglong ← toFloat (← getPos pos (startpar + 4))
      let mmlong ← toFloat (← getPos pos (startpar + 5))
      let sslong ← toFloat (← getPos pos (startpar + 6))
      let dirlong ← getPos pos (startpar + 7)
      pure (mmlat, sslat, gglong, mmlong, sslong, dirlat, dirlong)
    else
      pure (0, 0, 0, 0, 0, [], [])
  match t with
  | (mmlat, sslat, gglong, mmlong, sslong, dirlat, dirlong) =>
    let deglat := gglat + mmlat / 60 + sslat / 3600
    let deglong := gglong + mmlong / 60 + sslong / 3600
    let deglat := if dirlat = str "S" then -deglat else deglat
    let deglong := if dirlong = str "W" then -deglong else deglong
    .ok ⟨deglat, deglong⟩

/-- `extract_data_from_coord` (lines 82–151): strip the optional parameters,
renumber the `anon_<n>` keys as integer positions, and dispatch on their
count; the result replaces the template's data entirely. -/
def extract_data_from_coord (template : Dict) : Except PErr CoordPair :=
  match buildPos (anonParsOf template) [] with
  | none => .error .intParse
  | some pos =>
    match listMin ((anonParsOf template).filterMap (fun kv => parseAnonIdx kv.1)) with
    | none => .error .minEmpty
    | some startpar => resolveArity pos (anonParsOf template).length startpar

/-! ### Nested-template escaper, span scanner and extraction driver -/

/-- One finditer-and-replace pass of the `CURLY = re.compile(r'\{\{([^\}]*)\}\}')`
loop (lines 172 and 195–201): each narrowest `\x7b\x7b...\x7d\x7d` span has every `|`
of its captured content replaced by `~` (the replacement has the same length as
the match, so the in-place splice of the source equals a single left-to-right
pass).  Fuel argument as in `sub1Go`. -/
def curlyEscapeGo : ℕ → Str → Str
  | 0, l => l
  | _ + 1, [] => []
  | f + 1, c1 :: r1 =>
    if c1 = '{' then
      match r1 with
      | c2 :: r =>
        if c2 = '{' then
          let content := r.takeWhile (fun c => !(c == '}'))
          let rest := r.dropWhile (fun c => !(c == '}'))
          match rest with
          | '}' :: '}' :: r2 =>
            '{' :: '{' :: (content.map (fun c => if c = '|' then '~' else c) ++
              '}' :: '}' :: curlyEscapeGo f r2)
          | _ => c1 :: curlyEscapeGo f r1
        else c1 :: curlyEscapeGo f r1
      | [] => [c1]
    else c1 :: curlyEscapeGo f r1

/-- The nested-template escaper applied to a template body. -/
def curlyEscape (s : Str) : Str := curlyEscapeGo s.length s

/-- Modelled from the spec: helper of the markup span scanner (§6) — consume
input up to the `\x7d\x7d` matching an already-open `\x7b\x7b`, pairing nested double
braces (`d` is the number of additional open spans); returns the span content
and the remaining input, `none` when the span never closes. -/
def matchSpan : Str → ℕ → Option (Str × Str)
  | '}' :: '}' :: r, 0 => some ([], r)
  | '}' :: '}' :: r, d + 1 => (matchSpan r d).map (fun p => ('}' :: '}' :: p.1, p.2))
  | '{' :: '{' :: r, d => (matchSpan r (d + 1)).map (fun p => ('{' :: '{' :: p.1, p.2))
  | c :: r, d => (matchSpan r d).map (fun p => (c :: p.1, p.2))
  | [], _ => none

/-- Modelled from the spec: the markup span scanner
(`mwparserfromhell.parse(content).filter_templates()`, an external collaborator
per §6): "produces a … sequence of raw template spans (including the
delimiters) in document order, correctly respecting nesting", "including
nested ones as whole units" (§4.6) — so a span is emitted as a whole and its
interior is scanned for further spans; an opener that never closes yields no
span.  Fuel argument as in `sub1Go`. -/
def scanSpansGo : ℕ → Str → List Str
  | 0, _ => []
  | f + 1, l =>
    match l with
    | '{' :: '{' :: rest =>
      match matchSpan rest 0 with
      | some p => ('{' :: '{' :: (p.1 ++ ['}', '}'])) ::
          (scanSpansGo f p.1 ++ scanSpansGo f p.2)
      | none => scanSpansGo f ('{' :: rest)
    | _ :: rest => scanSpansGo f rest
    | [] => []

/-- Python `' '.join(s.split())` (lines 185 and 187): collapse every whitespace
run to a single space and strip the ends.  `wordsGo` is `s.split()` with a fuel
argument as in `sub1Go`. -/
def wordsGo : ℕ → Str → List Str
  | 0, _ => []
  | f + 1, l =>
    let l1 := l.dropWhile pyWs
    if l1.isEmpty then []
    else l1.takeWhile (fun c => !pyWs c) :: wordsGo f (l1.dropWhile (fun c => !pyWs c))

/-- `' '.join(s.split())`. -/
def collapseWs (s : Str) : Str := List.intercalate [' '] (wordsGo s.length s)

/-- Python `str.lower()` restricted to ASCII letters: the template names the
claims exercise are ASCII. -/
def pyLowerChar (c : Char) : Char :=
  if 'A' ≤ c ∧ c ≤ 'Z' then Char.ofNat (c.toNat + 32) else c

/-- `s.lower()`. -/
def pyLower (l : Str) : Str := l.map pyLowerChar

/-- `name.lower().replace('_', ' ')` (line 214). -/
def cleanName (name : Str) : Str :=
  (pyLower name).map (fun c => if c = '_' then ' ' else c)

/-- The data part of one extracted template occurrence: either the tokenized
key/value dictionary, or — for a `coord` template — the resolved coordinate
pair that replaces it. -/
inductive TData where
  | fields (d : Dict)
  | coords (c : CoordPair)
  deriving DecidableEq, Repr

/-- One item of the extraction result (`{'name': ..., 'data': ...}`). -/
structure Occurrence where
  name : Str
  data : TData
  deriving DecidableEq, Repr

/-- Lookup in the caller-supplied `extra_coords` mapping. -/
def groupsGet : List (Str × List (List Str)) → Str → Option (List (List Str))
  | [], _ => none
  | kv :: rest, k => if kv.1 = k then some kv.2 else groupsGet rest k

/-- `augment_data_with_coords` (lines 154–169).  The external DMS parser
(`coordinates.parseDMS`, a module the repository imports but does not contain)
is modelled from the spec (§4.5) as an oracle argument: `none` is a parse
failure (the `except` branch of lines 168–169, which logs and leaves `data`
untouched), `some (lon, lat)` the decimal results stored under `'lon'` then
`'lat'` (lines 166–167; the decimal values are kept opaque since no claim
depends on them). -/
def augment_data_with_coords (parseDMS : List Str → Option (Str × Str))
    (data : Dict) (coords_fiels : List (List Str)) : Dict :=
  if (coords_fiels.flatten.map (fun f => (dictGet data f).getD [])).all (·.isEmpty) then
    data
  else
    match parseDMS (coords_fiels.flatten.map (fun f => (dictGet data f).getD [])) with
    | some p => dictInsert (dictInsert data (str "lon") p.1) (str "lat") p.2
    | none => data

/-- The normalization chain applied to one span (lines 191–201): strip the
outer delimiters (`template_string[2:-2]`), `clean_ref`, `clean_wiki_links`,
then the nested-template escaping loop. -/
def normalizedBody (span : Str) : Str :=
  curlyEscape (clean_wiki_links (clean_ref ((span.drop 2).dropLast.dropLast)))

/-- The per-span body of the driver loop (lines 190–221): normalize and escape
the span, tokenize, special-case `coord`, and apply the augmenter when
configured.  (When the name is `coord` the source would hand the
already-resolved `\x7b'lat','lon'\x7d` dict to the augmenter as well; as the resolved
data is no longer the tokenized dict, that branch is modelled only for
non-`coord` occurrences — no claim configures `extra_coords` for `coord`.) -/
def processSpan (extra_coords : List (Str × List (List Str)))
    (parseDMS : List Str → Option (Str × Str)) (span : Str) : Except PErr Occurrence :=
  if cleanName (tokenize (normalizedBody span)).1 = str "coord" then
    (extract_data_from_coord (tokenize (normalizedBody span)).2).map
      (fun c => ⟨(tokenize (normalizedBody span)).1, .coords c⟩)
  else
    .ok ⟨(tokenize (normalizedBody span)).1, .fields
      (if extra_coords.isEmpty then (tokenize (normalizedBody span)).2
       else
         match groupsGet extra_coords (cleanName (tokenize (normalizedBody span)).1) with
         | some groups =>
           augment_data_with_coords parseDMS (tokenize (normalizedBody span)).2 groups
         | none => (tokenize (normalizedBody span)).2)⟩

/-- `data_from_templates` (lines 175–222) on caller-supplied wikitext:
collapse whitespace, scan for template spans, and process them in document
order; an uncaught exception from any span aborts the whole extraction. -/
def data_from_templates (wikitext : Str) (extra_coords : List (Str × List (List Str)))
    (parseDMS : List Str → Option (Str × Str)) : Except PErr (List Occurrence) :=
  let content := collapseWs wikitext
  let spans := scanSpansGo content.length content
  spans.mapM (processSpan extra_coords parseDMS)

/-! ### Template-usage crawl filter (`pages_with_template`) -/

/-- The `skip_page` tuple of the source (lines 242–253), translated literally:
the source omits the comma after `'user_talk:'`, so Python's implicit literal
concatenation fuses it with the next line into the single entry
`'user_talk:discussioni_utente:'`. -/
def skip_page : List Str :=
  [str "user:", str "utente:",
   str "user_talk:discussioni_utente:",
   str "template:",
   str "template_talk:", str "discussioni_template:"]

/-- The result filter of the template-usage crawl with
`skip_users_and_templates` enabled (lines 268–271): keep a title unless its
lowercase form starts with one of the `skip_page` entries. -/
def keptTitles (titles : List Str) : List Str :=
  titles.filter (fun t => !(skip_page.any (fun p => p.isPrefixOf (pyLower t))))

/-- The positions, relative to `startpar`, that the arity dispatch reads from
the renumbered positional map (every other count reads only `startpar`
itself). -/
def requiredOffsets (n : ℕ) : List ℤ :=
  if n = 2 then [0, 1]
  else if n = 4 then [0, 1, 2, 3]
  else if n = 6 then [0, 1, 2, 3, 4, 5]
  else if n = 8 then [0, 1, 2, 3, 4, 5, 6, 7]
  else [0]

/-- The subset of `requiredOffsets` whose values are passed to `float`. -/
def numericOffsets (n : ℕ) : List ℤ :=
  if n = 2 then [0, 1]
  else if n = 4 then [0, 2]
  else if n = 6 then [0, 1, 3, 4]
  else if n = 8 then [0, 1, 2, 4, 5, 6]
  else [0]

/-- Whether some reserved optional-parameter token occurs in the string. -/
def hasTokStr (s : Str) : Bool := optionalpars.any (fun op => containsSub s op)

/-- The characters that can occur in a string accepted by `parseFloat`. -/
def floatChar (c : Char) : Bool := c.isDigit || c == '.' || c == '-' || c == '+'

/-! ## Helper lemmas -/

theorem sub1Go_of_no_LL : ∀ (f : ℕ) (l : Str), hasLL l = false → sub1Go f l = l := by
  intro f
  induction f with
  | zero => intro l _; rfl
  | succ f ih =>
    intro l hl
    match l with
    | [] => rfl
    | [c1] =>
      simp only [sub1Go]
      split
      · rfl
      · rw [ih [] rfl]
    | c1 :: c2 :: r =>
      simp only [hasLL, Bool.or_eq_false_iff, Bool.and_eq_false_iff] at hl
      obtain ⟨h12, hr⟩ := hl
      have hrec : sub1Go f (c2 :: r) = c2 :: r := ih _ hr
      by_cases h1 : c1 = '['
      · have h2 : ¬ c2 = '[' := by
          rcases h12 with h | h
          · exact fun _ => by simp [h1] at h
          · exact fun hc => by simp [hc] at h
        simp only [sub1Go, if_pos h1, if_neg h2, hrec]
      · simp only [sub1Go, if_neg h1, hrec]

theorem sub2Go_of_no_LL : ∀ (f : ℕ) (l : Str), hasLL l = false → sub2Go f l = l := by
  intro f
  induction f with
  | zero => intro l _; rfl
  | succ f ih =>
    intro l hl
    match l with
    | [] => rfl
    | [c1] =>
      simp only [sub2Go]
      split
      · rfl
      · rw [ih [] rfl]
    | c1 :: c2 :: r =>
      simp only [hasLL, Bool.or_eq_false_iff, Bool.and_eq_false_iff] at hl
      obtain ⟨h12, hr⟩ := hl
      have hrec : sub2Go f (c2 :: r) = c2 :: r := ih _ hr
      by_cases h1 : c1 = '['
      · have h2 : ¬ c2 = '[' := by
          rcases h12 with h | h
          · exact fun _ => by simp [h1] at h
          · exact fun hc => by simp [hc] at h
        simp only [sub2Go, if_pos h1, if_neg h2, hrec]
      · simp only [sub2Go, if_neg h1, hrec]

theorem clean_wiki_links_of_no_LL (l : Str) (h : hasLL l = false) :
    clean_wiki_links l = l := by
  unfold clean_wiki_links
  rw [sub1Go_of_no_LL _ _ h, sub2Go_of_no_LL _ _ h]

theorem pyStrip_subset (l : Str) : ∀ c ∈ pyStrip l, c ∈ l := by
  intro c hc
  unfold pyStrip at hc
  rw [List.mem_reverse] at hc
  have h1 : c ∈ (l.dropWhile pyWs).reverse := (List.dropWhile_sublist _).subset hc
  rw [List.mem_reverse] at h1
  exact (List.dropWhile_sublist _).subset h1

theorem sub1Go_subset : ∀ (f : ℕ) (l : Str) (c : Char), c ∈ sub1Go f l → c ∈ l := by
  intro f
  induction f with
  | zero => intro l c hc; exact hc
  | succ f ih =>
    intro l c hc
    match l with
    | [] => exact hc
    | c1 :: r1 =>
      by_cases h1 : c1 = '['
      · cases r1 with
        | nil =>
          simp only [sub1Go, if_pos h1] at hc
          simpa using hc
        | cons c2 r =>
          by_cases h2 : c2 = '['
          · simp only [sub1Go, if_pos h1, if_pos h2] at hc
            split at hc
            · rename_i heq1 heq2
              rcases List.mem_append.mp hc with hcl | hcr
              · have hcr' : c ∈ r := (List.takeWhile_sublist _).subset hcl
                exact List.mem_cons_of_mem _ (List.mem_cons_of_mem _ hcr')
              · have hr2 := ih _ c hcr
                have hM : c ∈ r.dropWhile (fun c => !(c == '|' || c == ']')) := by
                  rw [heq2]
                  exact List.mem_cons_of_mem _ (List.mem_cons_of_mem _ hr2)
                have hcr' : c ∈ r := (List.dropWhile_sublist _).subset hM
                exact List.mem_cons_of_mem _ (List.mem_cons_of_mem _ hcr')
            · rcases List.mem_cons.mp hc with rfl | h
              · exact List.mem_cons_self _ _
              · exact List.mem_cons_of_mem _ (ih _ c h)
          · simp only [sub1Go, if_pos h1, if_neg h2] at hc
            rcases List.mem_cons.mp hc with rfl | h
            · exact List.mem_cons_self _ _
            · exact List.mem_cons_of_mem _ (ih _ c h)
      · simp only [sub1Go, if_neg h1] at hc
        rcases List.mem_cons.mp hc with rfl | h
        · exact List.mem_cons_self _ _
        · exact List.mem_cons_of_mem _ (ih _ c h)

theorem sub2Go_subset : ∀ (f : ℕ) (l : Str) (c : Char), c ∈ sub2Go f l → c ∈ l := by
  intro f
  induction f with
  | zero => intro l c hc; exact hc
  | succ f ih =>
    intro l c hc
    match l with
    | [] => exact hc
    | c1 :: r1 =>
      by_cases h1 : c1 = '['
      · cases r1 with
        | nil =>
          simp only [sub2Go, if_pos h1] at hc
          simpa using hc
        | cons c2 r =>
          by_cases h2 : c2 = '['
          · simp only [sub2Go, if_pos h1, if_pos h2] at hc
            split at hc
            · rename_i heqT heqR
              rename_i tgtv restv hdT tlT r2
              split at hc
              · rename_i heqG heqR2
                rename_i grpv rest2v hd2 tl2 r3
                rcases List.mem_append.mp hc with hcl | hcr
                · have hc2 : c ∈ r2 := (List.takeWhile_sublist _).subset hcl
                  have hcd : c ∈ r.dropWhile (fun c => !(c == '|' || c == ']')) := by
                    rw [heqR]
                    exact List.mem_cons_of_mem _ hc2
                  have hcr' : c ∈ r := (List.dropWhile_sublist _).subset hcd
                  exact List.mem_cons_of_mem _ (List.mem_cons_of_mem _ hcr')
                · have hr3 : c ∈ r3 := ih _ c hcr
                  have hc2 : c ∈ r2 := by
                    have hmem : c ∈ r2.dropWhile (fun c => !(c == ']')) := by
                      rw [heqR2]
                      exact List.mem_cons_of_mem _ (List.mem_cons_of_mem _ hr3)
                    exact (List.dropWhile_sublist _).subset hmem
                  have hcd : c ∈ r.dropWhile (fun c => !(c == '|' || c == ']')) := by
                    rw [heqR]
                    exact List.mem_cons_of_mem _ hc2
                  have hcr' : c ∈ r := (List.dropWhile_sublist _).subset hcd
                  exact List.mem_cons_of_mem _ (List.mem_cons_of_mem _ hcr')
              · rcases List.mem_cons.mp hc with rfl | h
                · exact List.mem_cons_self _ _
                · exact List.mem_cons_of_mem _ (ih _ c h)
            · rcases List.mem_cons.mp hc with rfl | h
              · exact List.mem_cons_self _ _
              · exact List.mem_cons_of_mem _ (ih _ c h)
          · simp only [sub2Go, if_pos h1, if_neg h2] at hc
            rcases List.mem_cons.mp hc with rfl | h
            · exact List.mem_cons_self _ _
            · exact List.mem_cons_of_mem _ (ih _ c h)
      · simp only [sub2Go, if_neg h1] at hc
        rcases List.mem_cons.mp hc with rfl | h
        · exact List.mem_cons_self _ _
        · exact List.mem_cons_of_mem _ (ih _ c h)

theorem cleanChars_normalize (l : Str) (h : l.all noMarkupChar = true) :
    (normalize l).all noMarkupChar = true := by
  refine List.all_eq_true.mpr fun c hc => ?_
  have hcu : c ∈ sub2Go (sub1Go (pyStrip l).length (pyStrip l)).length
      (sub1Go (pyStrip l).length (pyStrip l)) := hc
  have hc1 := sub1Go_subset _ _ c (sub2Go_subset _ _ c hcu)
  have hc0 : c ∈ l := pyStrip_subset l c hc1
  exact List.all_eq_true.mp h c hc0

theorem tokenizeData_eq_foldl (segs : List Str) :
    ∀ (c : ℕ) (d : Dict),
      tokenizeData segs c d =
        (segEntries segs c).foldl (fun d kv => dictInsert d kv.1 kv.2) d := by
  induction segs with
  | nil => intro c d; rfl
  | cons seg rest ih =>
    intro c d
    simp only [tokenizeData, segEntries, segEntriesT]
    cases splitEq1 seg with
    | some p => simpa using ih c _
    | none => simpa using ih (c + 1) _

theorem anonKeySeq_eq (segs : List Str) :
    ∀ c : ℕ,
      anonKeySeq segs c =
        (List.range (segs.countP (fun seg => (splitEq1 seg).isNone))).map
          (fun i => anonKey (c + i + 1)) := by
  induction segs with
  | nil => intro c; rfl
  | cons seg rest ih =>
    intro c
    cases hsp : splitEq1 seg with
    | some p =>
      have hcount : (seg :: rest).countP (fun s => (splitEq1 s).isNone) =
          rest.countP (fun s => (splitEq1 s).isNone) := by
        simp [List.countP_cons, hsp]
      have hstep : anonKeySeq (seg :: rest) c = anonKeySeq rest c := by
        simp [anonKeySeq, segEntriesT, hsp]
      rw [hcount, hstep, ih c]
    | none =>
      have hcount : (seg :: rest).countP (fun s => (splitEq1 s).isNone) =
          rest.countP (fun s => (splitEq1 s).isNone) + 1 := by
        simp [List.countP_cons, hsp]
      have hstep : anonKeySeq (seg :: rest) c =
          anonKey (c + 1) :: anonKeySeq rest (c + 1) := by
        simp [anonKeySeq, segEntriesT, hsp]
      rw [hcount, hstep, ih (c + 1), List.range_succ_eq_map, List.map_cons, List.map_map]
      congr 1
      apply List.map_congr_left
      intro i _
      simp only [Function.comp_apply]
      congr 1
      omega

theorem parseUnsigned_chars (s : Str) (q : ℚ) (h : parseUnsigned s = some q) :
    s.all (fun c => c.isDigit || c == '.') = true := by
  have hs : s.takeWhile Char.isDigit ++ s.dropWhile Char.isDigit = s :=
    List.takeWhile_append_dropWhile Char.isDigit s
  have htake : (s.takeWhile Char.isDigit).all (fun c => c.isDigit || c == '.') = true := by
    refine List.all_eq_true.mpr fun c hc => ?_
    have := List.mem_takeWhile_imp hc
    simp [this]
  unfold parseUnsigned at h
  split at h
  · rename_i heq
    rw [← hs, heq, List.append_nil]
    exact htake
  · rename_i fp heq
    split at h
    · rename_i hcond
      rw [Bool.and_eq_true] at hcond
      rw [← hs, heq, List.all_append, htake, Bool.true_and, List.all_cons]
      have hfp : fp.all (fun c => c.isDigit || c == '.') = true :=
        List.all_eq_true.mpr fun c hc => by
          have := List.all_eq_true.mp hcond.1 c hc
          simp [this]
      simp [hfp]
    · exact absurd h (by simp)
  · exact absurd h (by simp)

theorem parseFloat_chars (s : Str) (q : ℚ) (h : parseFloat s = some q) :
    s.all floatChar = true := by
  have weaken : ∀ (r : Str) (q' : ℚ), parseUnsigned r = some q' → r.all floatChar = true := by
    intro r q' hr
    refine List.all_eq_true.mpr fun c hc => ?_
    have := List.all_eq_true.mp (parseUnsigned_chars r q' hr) c hc
    rcases Bool.or_eq_true _ _ |>.mp this with hd | hdot
    · simp [floatChar, hd]
    · simp [floatChar, hdot]
  unfold parseFloat at h
  split at h
  · rename_i r
    rcases Option.map_eq_some'.mp h with ⟨q', hq', _⟩
    simp only [List.all_cons, Bool.and_eq_true]
    exact ⟨by simp [floatChar], weaken r q' hq'⟩
  · rename_i r
    simp only [List.all_cons, Bool.and_eq_true]
    exact ⟨by simp [floatChar], weaken r q h⟩
  · exact weaken s q h

theorem containsSub_subset (hay needle : Str) (h : containsSub hay needle = true) :
    ∀ c ∈ needle, c ∈ hay := by
  induction hay with
  | nil =>
    intro c hc
    unfold containsSub at h
    rcases Bool.or_eq_true _ _ |>.mp h with hp | hfalse
    · have : needle <+: [] := List.isPrefixOf_iff_prefix.mp hp
      have : needle = [] := List.prefix_nil.mp this
      subst this
      exact absurd hc (List.not_mem_nil c)
    · exact absurd hfalse (by simp)
  | cons a t ih =>
    intro c hc
    unfold containsSub at h
    rcases Bool.or_eq_true _ _ |>.mp h with hp | hrec
    · exact (List.isPrefixOf_iff_prefix.mp hp).subset hc
    · exact List.mem_cons_of_mem a (ih hrec c hc)

theorem containsSub_false_of_badChar (s tok : Str) (c0 : Char)
    (hall : s.all floatChar = true) (hc0 : c0 ∈ tok) (hbad : floatChar c0 = false) :
    containsSub s tok = false := by
  by_contra hne
  have htrue : containsSub s tok = true := by
    cases hcs : containsSub s tok
    · exact absurd hcs hne
    · rfl
  have : c0 ∈ s := containsSub_subset s tok htrue c0 hc0
  have := List.all_eq_true.mp hall c0 this
  rw [hbad] at this
  exact absurd this (by simp)

theorem hasTokStr_false_of_float (s : Str) (hall : s.all floatChar = true) :
    hasTokStr s = false := by
  refine List.any_eq_false.mpr fun op hop => ?_
  fin_cases hop
  · exact ne_true_of_eq_false (containsSub_false_of_badChar s _ 'd' hall (by decide) (by decide))
  · exact ne_true_of_eq_false (containsSub_false_of_badChar s _ 'g' hall (by decide) (by decide))
  · exact ne_true_of_eq_false (containsSub_false_of_badChar s _ 'r' hall (by decide) (by decide))
  · exact ne_true_of_eq_false (containsSub_false_of_badChar s _ 'l' hall (by decide) (by decide))
  · exact ne_true_of_eq_false (containsSub_false_of_badChar s _ 'u' hall (by decide) (by decide))
  · exact ne_true_of_eq_false (containsSub_false_of_badChar s _ 'y' hall (by decide) (by decide))
  · exact ne_true_of_eq_false (containsSub_false_of_badChar s _ 'y' hall (by decide) (by decide))

theorem hasTokKV_false_of (k v : Str) (hk : hasTokStr k = false) (hv : hasTokStr v = false) :
    hasTokKV (k, v) = false := by
  refine List.any_eq_false.mpr fun op hop => ?_
  have hkf := List.any_eq_false.mp hk op hop
  have hvf := List.any_eq_false.mp hv op hop
  simp at hkf hvf
  simp [hkf, hvf]

theorem optStrip_eq_self (d : Dict) (h : ∀ kv ∈ d, hasTokKV kv = false) :
    optStrip d = d := by
  have hnil : d.filter hasTokKV = [] :=
    List.filter_eq_nil_iff.mpr (fun kv hkv => by simp [h kv hkv])
  have htd : todelKeys d = [] := by simp [todelKeys, hnil]
  unfold optStrip
  rw [htd]
  simp

theorem resolveArity_ok_reads (pos : ZDict) (n : ℕ) (sp : ℤ) (c : CoordPair)
    (h : resolveArity pos n sp = .ok c) :
    ∀ off ∈ requiredOffsets n, ∃ v, zdictGet pos (sp + off) = some v ∧
      (off ∈ numericOffsets n → ∃ q, parseFloat v = some q) := by
  obtain ⟨v0, hg0⟩ : ∃ v, zdictGet pos sp = some v := by
    cases hg : zdictGet pos sp with
    | some v => exact ⟨v, rfl⟩
    | none => simp [resolveArity, getPos, hg, Bind.bind, Except.bind] at h
  obtain ⟨q0, hf0⟩ : ∃ q, parseFloat v0 = some q := by
    cases hf : parseFloat v0 with
    | some q => exact ⟨q, rfl⟩
    | none => simp [resolveArity, getPos, toFloat, hg0, hf, Bind.bind, Except.bind] at h
  by_cases hn2 : n = 2
  · subst hn2
    obtain ⟨v1, hg1⟩ : ∃ v, zdictGet pos (sp + 1) = some v := by
      cases hg : zdictGet pos (sp + 1) with
      | some v => exact ⟨v, rfl⟩
      | none => simp [resolveArity, getPos, toFloat, hg0, hf0, hg, Bind.bind, Except.bind] at h
    obtain ⟨q1, hf1⟩ : ∃ q, parseFloat v1 = some q := by
      cases hf : parseFloat v1 with
      | some q => exact ⟨q, rfl⟩
      | none =>
        simp [resolveArity, getPos, toFloat, hg0, hf0, hg1, hf, Bind.bind, Except.bind] at h
    intro off hoff
    simp [requiredOffsets] at hoff
    rcases hoff with rfl | rfl
    · exact ⟨v0, by simpa using hg0, fun _ => ⟨q0, hf0⟩⟩
    · exact ⟨v1, hg1, fun _ => ⟨q1, hf1⟩⟩
  by_cases hn4 : n = 4
  · subst hn4
    obtain ⟨v1, hg1⟩ : ∃ v, zdictGet pos (sp + 1) = some v := by
      cases hg : zdictGet pos (sp + 1) with
      | some v => exact ⟨v, rfl⟩
      | none => simp [resolveArity, getPos, toFloat, hg0, hf0, hg, Bind.bind, Except.bind] at h
    obtain ⟨v2, hg2⟩ : ∃ v, zdictGet pos (sp + 2) = some v := by
      cases hg : zdictGet pos (sp + 2) with
      | some v => exact ⟨v, rfl⟩
      | none =>
        simp [resolveArity, getPos, toFloat, hg0, hf0, hg1, hg, Bind.bind, Except.bind] at h
    obtain ⟨q2, hf2⟩ : ∃ q, parseFloat v2 = some q := by
      cases hf : parseFloat v2 with
      | some q => exact ⟨q, rfl⟩
      | none =>
        simp [resolveArity, getPos, toFloat, hg0, hf0, hg1, hg2, hf, Bind.bind, Except.bind] at h
    obtain ⟨v3, hg3⟩ : ∃ v, zdictGet pos (sp + 3) = some v := by
      cases hg : zdictGet pos (sp + 3) with
      | some v => exact ⟨v, rfl⟩
      | none =>
        simp [resolveArity, getPos, toFloat, hg0, hf0, hg1, hg2, hf2, hg,
          Bind.bind, Except.bind] at h
    intro off hoff
    simp [requiredOffsets] at hoff
    rcases hoff with rfl | rfl | rfl | rfl
    · exact ⟨v0, by simpa using hg0, fun _ => ⟨q0, hf0⟩⟩
    · exact ⟨v1, hg1, fun hmem => absurd hmem (by decide)⟩
    · exact ⟨v2, hg2, fun _ => ⟨q2, hf2⟩⟩
    · exact ⟨v3, hg3, fun hmem => absurd hmem (by decide)⟩
  by_cases hn6 : n = 6
  · subst hn6
    obtain ⟨v1, hg1⟩ : ∃ v, zdictGet pos (sp + 1) = some v := by
      cases hg : zdictGet pos (sp + 1) with
      | some v => exact ⟨v, rfl⟩
      | none => simp [resolveArity, getPos, toFloat, hg0, hf0, hg, Bind.bind, Except.bind] at h
    obtain ⟨q1, hf1⟩ : ∃ q, parseFloat v1 = some q := by
      cases hf : parseFloat v1 with
      | some q => exact ⟨q, rfl⟩
      | none =>
        simp [resolveArity, getPos, toFloat, hg0, hf0, hg1, hf, Bind.bind, Except.bind] at h
    obtain ⟨v2, hg2⟩ : ∃ v, zdictGet pos (sp + 2) = some v := by
      cases hg : zdictGet pos (sp + 2) with
      | some v => exact ⟨v, rfl⟩
      | none =>
        simp [resolveArity, getPos, toFloat, hg0, hf0, hg1, hf1, hg, Bind.bind, Except.bind] at h
    obtain ⟨v3, hg3⟩ : ∃ v, zdictGet pos (sp + 3) = some v := by
      cases hg : zdictGet pos (sp + 3) with
      | some v => exact ⟨v, rfl⟩
      | none =>
        simp [resolveArity, getPos, toFloat, hg0, hf0, hg1, hf1, hg2, hg,
          Bind.bind, Except.bind] at h
    obtain ⟨q3, hf3⟩ : ∃ q, parseFloat v3 = some q := by
      cases hf : parseFloat v3 with
      | some q => exact ⟨q, rfl⟩
      | none =>
        simp [resolveArity, getPos, toFloat, hg0, hf0, hg1, hf1, hg2, hg3, hf,
          Bind.bind, Except.bind] at h
    obtain ⟨v4, hg4⟩ : ∃ v, zdictGet pos (sp + 4) = some v := by
      cases hg : zdictGet pos (sp + 4) with
      | some v => exact ⟨v, rfl⟩
      | none =>
        simp [resolveArity, getPos, toFloat, hg0, hf0, hg1, hf1, hg2, hg3, hf3, hg,
          Bind.bind, Except.bind] at h
    obtain ⟨q4, hf4⟩ : ∃ q, parseFloat v4 = some q := by
      cases hf : parseFloat v4 with
      | some q => exact ⟨q, rfl⟩
      | none =>
        simp [resolveArity, getPos, toFloat, hg0, hf0, hg1, hf1, hg2, hg3, hf3, hg4, hf,
          Bind.bind, Except.bind] at h
    obtain ⟨v5, hg5⟩ : ∃ v, zdictGet pos (sp + 5) = some v := by
      cases hg : zdictGet pos (sp + 5) with
      | some v => exact ⟨v, rfl⟩
      | none =>
        simp [resolveArity, getPos, toFloat, hg0, hf0, hg1, hf1, hg2, hg3, hf3, hg4, hf4, hg,
          Bind.bind, Except.bind] at h
    intro off hoff
    simp [requiredOffsets] at hoff
    rcases hoff with rfl | rfl | rfl | rfl | rfl | rfl
    · exact ⟨v0, by simpa using hg0, fun _ => ⟨q0, hf0⟩⟩
    · exact ⟨v1, hg1, fun _ => ⟨q1, hf1⟩⟩
    · exact ⟨v2, hg2, fun hmem => absurd hmem (by decide)⟩
    · exact ⟨v3, hg3, fun _ => ⟨q3, hf3⟩⟩
    · exact ⟨v4, hg4, fun _ => ⟨q4, hf4⟩⟩
    · exact ⟨v5, hg5, fun hmem => absurd hmem (by decide)⟩
  by_cases hn8 : n = 8
  · subst hn8
    obtain ⟨v1, hg1⟩ : ∃ v, zdictGet pos (sp + 1) = some v := by
      cases hg : zdictGet pos (sp + 1) with
      | some v => exact ⟨v, rfl⟩
      | none => simp [resolveArity, getPos, toFloat, hg0, hf0, hg, Bind.bind, Except.bind] at h
    obtain ⟨q1, hf1⟩ : ∃ q, parseFloat v1 = some q := by
      cases hf : parseFloat v1 with
      | some q => exact ⟨q, rfl⟩
      | none =>
        simp [resolveArity, getPos, toFloat, hg0, hf0, hg1, hf, Bind.bind, Except.bind] at h
    obtain ⟨v2, hg2⟩ : ∃ v, zdictGet pos (sp + 2) = some v := by
      cases hg : zdictGet pos (sp + 2) with
      | some v => exact ⟨v, rfl⟩
      | none =>
        simp [resolveArity, getPos, toFloat, hg0, hf0, hg1, hf1, hg, Bind.bind, Except.bind] at h
    obtain ⟨q2, hf2⟩ : ∃ q, parseFloat v2 = some q := by
      cases hf : parseFloat v2 with
      | some q => exact ⟨q, rfl⟩
      | none =>
        simp [resolveArity, getPos, toFloat, hg0, hf0, hg1, hf1, hg2, hf,
          Bind.bind, Except.bind] at h
    obtain ⟨v3, hg3⟩ : ∃ v, zdictGet pos (sp + 3) = some v := by
      cases hg : zdictGet pos (sp + 3) with
      | some v => exact ⟨v, rfl⟩
      | none =>
        simp [resolveArity, getPos, toFloat, hg0, hf0, hg1, hf1, hg2, hf2, hg,
          Bind.bind, Except.bind] at h
    obtain ⟨v4, hg4⟩ : ∃ v, zdictGet pos (sp + 4) = some v := by
      cases hg : zdictGet pos (sp + 4) with
      | some v => exact ⟨v, rfl⟩
      | none =>
        simp [resolveArity, getPos, toFloat, hg0, hf0, hg1, hf1, hg2, hf2, hg3, hg,
          Bind.bind, Except.bind] at h
    obtain ⟨q4, hf4⟩ : ∃ q, parseFloat v4 = some q := by
      cases hf : parseFloat v4 with
      | some q => exact ⟨q, rfl⟩
      | none =>
        simp [resolveArity, getPos, toFloat, hg0, hf0, hg1, hf1, hg2, hf2, hg3, hg4, hf,
          Bind.bind, Except.bind] at h
    obtain ⟨v5, hg5⟩ : ∃ v, zdictGet pos (sp + 5) = some v := by
      cases hg : zdictGet pos (sp + 5) with
      | some v => exact ⟨v, rfl⟩
      | none =>
        simp [resolveArity, getPos, toFloat, hg0, hf0, hg1, hf1, hg2, hf2, hg3, hg4, hf4, hg,
          Bind.bind, Except.bind] at h
    obtain ⟨q5, hf5⟩ : ∃ q, parseFloat v5 = some q := by
      cases hf : parseFloat v5 with
      | some q => exact ⟨q, rfl⟩
      | none =>
        simp [resolveArity, getPos, toFloat, hg0, hf0, hg1, hf1, hg2, hf2, hg3, hg4, hf4,
          hg5, hf, Bind.bind, Except.bind] at h
    obtain ⟨v6, hg6⟩ : ∃ v, zdictGet pos (sp + 6) = some v := by
      cases hg : zdictGet pos (sp + 6) with
      | some v => exact ⟨v, rfl⟩
      | none =>
        simp [resolveArity, getPos, toFloat, hg0, hf0, hg1, hf1, hg2, hf2, hg3, hg4, hf4,
          hg5, hf5, hg, Bind.bind, Except.bind] at h
    obtain ⟨q6, hf6⟩ : ∃ q, parseFloat v6 = some q := by
      cases hf : parseFloat v6 with
      | some q => exact ⟨q, rfl⟩
      | none =>
        simp [resolveArity, getPos, toFloat, hg0, hf0, hg1, hf1, hg2, hf2, hg3, hg4, hf4,
          hg5, hf5, hg6, hf, Bind.bind, Except.bind] at h
    obtain ⟨v7, hg7⟩ : ∃ v, zdictGet pos (sp + 7) = some v := by
      cases hg : zdictGet pos (sp + 7) with
      | some v => exact ⟨v, rfl⟩
      | none =>
        simp [resolveArity, getPos, toFloat, hg0, hf0, hg1, hf1, hg2, hf2, hg3, hg4, hf4,
          hg5, hf5, hg6, hf6, hg, Bind.bind, Except.bind] at h
    intro off hoff
    simp [requiredOffsets] at hoff
    rcases hoff with rfl | rfl | rfl | rfl | rfl | rfl | rfl | rfl
    · exact ⟨v0, by simpa using hg0, fun _ => ⟨q0, hf0⟩⟩
    · exact ⟨v1, hg1, fun _ => ⟨q1, hf1⟩⟩
    · exact ⟨v2, hg2, fun _ => ⟨q2, hf2⟩⟩
    · exact ⟨v3, hg3, fun hmem => absurd hmem (by decide)⟩
    · exact ⟨v4, hg4, fun _ => ⟨q4, hf4⟩⟩
    · exact ⟨v5, hg5, fun _ => ⟨q5, hf5⟩⟩
    · exact ⟨v6, hg6, fun _ => ⟨q6, hf6⟩⟩
    · exact ⟨v7, hg7, fun hmem => absurd hmem (by decide)⟩
  · intro off hoff
    simp [requiredOffsets, hn2, hn4, hn6, hn8] at hoff
    subst hoff
    refine ⟨v0, by simpa using hg0, fun _ => ⟨q0, hf0⟩⟩

theorem keys_nodup_inj (d : Dict) (h : (d.map Prod.fst).Nodup) :
    ∀ kv ∈ d, ∀ kv' ∈ d, kv.1 = kv'.1 → kv = kv' := by
  induction d with
  | nil => intro kv hkv; exact absurd hkv (List.not_mem_nil kv)
  | cons a t ih =>
    rw [List.map_cons, List.nodup_cons] at h
    intro kv hkv kv' hkv' heq
    rcases List.mem_cons.mp hkv with rfl | hkvt
    · rcases List.mem_cons.mp hkv' with rfl | hkv't
      · rfl
      · exact absurd (by rw [heq]; exact List.mem_map_of_mem Prod.fst hkv't) h.1
    · rcases List.mem_cons.mp hkv' with rfl | hkv't
      · exact absurd (by rw [← heq]; exact List.mem_map_of_mem Prod.fst hkvt) h.1
      · exact ih h.2 kv hkvt kv' hkv't heq

theorem numeric_subset_required (n : ℕ) :
    ∀ off ∈ numericOffsets n, off ∈ requiredOffsets n := by
  intro off hoff
  by_cases h2 : n = 2
  · subst h2
    simp [numericOffsets] at hoff
    simp [requiredOffsets]
    omega
  by_cases h4 : n = 4
  · subst h4
    simp [numericOffsets] at hoff
    simp [requiredOffsets]
    omega
  by_cases h6 : n = 6
  · subst h6
    simp [numericOffsets] at hoff
    simp [requiredOffsets]
    omega
  by_cases h8 : n = 8
  · subst h8
    simp [numericOffsets] at hoff
    simp [requiredOffsets]
    omega
  · simp [numericOffsets, h2, h4, h6, h8] at hoff
    simp [requiredOffsets, h2, h4, h6, h8]
    omega

theorem augment_none (p : List Str → Option (Str × Str)) (data : Dict)
    (groups : List (List Str))
    (hp : p (groups.flatten.map (fun f => (dictGet data f).getD [])) = none) :
    augment_data_with_coords p data groups = data := by
  unfold augment_data_with_coords
  split
  · rfl
  · rw [hp]

theorem mapM_congr {α β ε : Type} (f g : α → Except ε β) (l : List α)
    (h : ∀ x ∈ l, f x = g x) : l.mapM f = l.mapM g := by
  induction l with
  | nil => rfl
  | cons a t ih =>
    rw [List.mapM_cons, List.mapM_cons, h a (List.mem_cons_self a t),
      ih (fun x hx => h x (List.mem_cons_of_mem a hx))]

theorem processSpan_noparse (extra : List (Str × List (List Str)))
    (p : List Str → Option (Str × Str)) (hp : ∀ vs, p vs = none) (span : Str) :
    processSpan extra p span = processSpan [] (fun _ => none) span := by
  unfold processSpan
  by_cases hc : cleanName (tokenize (normalizedBody span)).1 = str "coord"
  · rw [if_pos hc, if_pos hc]
  · rw [if_neg hc, if_neg hc]
    have hdata :
        (if extra.isEmpty then (tokenize (normalizedBody span)).2
         else
           match groupsGet extra (cleanName (tokenize (normalizedBody span)).1) with
           | some groups =>
             augment_data_with_coords p (tokenize (normalizedBody span)).2 groups
           | none => (tokenize (normalizedBody span)).2) =
        (tokenize (normalizedBody span)).2 := by
      split
      · rfl
      · split
        · rename_i groups _
          exact augment_none p _ groups (hp _)
        · rfl
    rw [hdata]
    simp

/-! ## Claim theorems -/

/-- Claim C1: for the fixed input wikitext
`"\x7b\x7bcoord|41|12|S|12|34|W|display=inline\x7d\x7d"` (no extra coordinate field
groups), extraction returns exactly one occurrence named `coord` whose data is
exactly the lat/lon pair computed by `decimal = degrees + minutes/60`:
`lat = -(41 + 12/60) = -41.2 = -206/5` and
`lon = -(12 + 34/60) = -12.56666… = -377/30`; the raw coordinate parameters
have been replaced entirely by the pair (the source stores the two decimals
as their decimal strings; the exact rationals stand for those values). -/
theorem C1_end_to_end :
    data_from_templates (str "\x7b\x7bcoord|41|12|S|12|34|W|display=inline\x7d\x7d") []
        (fun _ => none) =
      .ok [⟨str "coord", .coords ⟨-206/5, -377/30⟩⟩] ∧
    (-206/5 : ℚ) = -(41 + 12/60) ∧ (-377/30 : ℚ) = -(12 + 34/60) := by
  refine ⟨?_, by norm_num, by norm_num⟩
  rw [show data_from_templates (str "\x7b\x7bcoord|41|12|S|12|34|W|display=inline\x7d\x7d") []
        (fun _ => none) =
      .ok [⟨str "coord",
        .coords ⟨-((41 : ℚ) + 12 / 60 + 0 / 3600), -((12 : ℚ) + 34 / 60 + 0 / 3600)⟩⟩]
    from rfl]
  norm_num

/-- Claim C2 (counterexample): extracting from `"\x7b\x7bOuter|\x7b\x7bInner|x|y\x7d\x7d|z\x7d\x7d"`
does NOT yield exactly one occurrence named `Outer` — the span scanner reports
the nested `Inner` template as a second occurrence, so no single-occurrence
result (for any data whatsoever) is possible; moreover the stored parameter
value carries `~` in place of the inner pipes (see the amended theorem). -/
theorem C2_counterexample :
    ¬ ∃ td : TData,
      data_from_templates (str "\x7b\x7bOuter|\x7b\x7bInner|x|y\x7d\x7d|z\x7d\x7d") [] (fun _ => none) =
        .ok [⟨str "Outer", td⟩] := by
  rintro ⟨td, htd⟩
  rw [show data_from_templates (str "\x7b\x7bOuter|\x7b\x7bInner|x|y\x7d\x7d|z\x7d\x7d") [] (fun _ => none) =
      .ok [⟨str "Outer", .fields [(str "anon_1", str "\x7b\x7bInner~x~y\x7d\x7d"),
              (str "anon_2", str "z")]⟩,
           ⟨str "Inner", .fields [(str "anon_1", str "x"), (str "anon_2", str "y")]⟩]
    from by decide] at htd
  simp at htd

/-- Claim C2 (amended): extracting from `"\x7b\x7bOuter|\x7b\x7bInner|x|y\x7d\x7d|z\x7d\x7d"` yields two
occurrences — `Outer` first, then the nested `Inner` (the scanner reports
nested templates as whole separate spans).  The pipes inside the inner
occurrence did not split the outer parameter list: `Outer` has exactly the two
parameters `anon_1` and `anon_2 = "z"` — but `anon_1` holds
`"\x7b\x7bInner~x~y\x7d\x7d"`: the escaper rewrote the inner pipes to the sentinel `~`
and nothing restores them, so the value does not contain the verbatim
`"\x7b\x7bInner|x|y\x7d\x7d"` text. -/
theorem C2_nested_pipes_escaped_not_verbatim :
    data_from_templates (str "\x7b\x7bOuter|\x7b\x7bInner|x|y\x7d\x7d|z\x7d\x7d") [] (fun _ => none) =
      .ok [⟨str "Outer", .fields [(str "anon_1", str "\x7b\x7bInner~x~y\x7d\x7d"),
              (str "anon_2", str "z")]⟩,
           ⟨str "Inner", .fields [(str "anon_1", str "x"), (str "anon_2", str "y")]⟩] ∧
    containsSub (str "\x7b\x7bInner~x~y\x7d\x7d") (str "\x7b\x7bInner|x|y\x7d\x7d") = false :=
  ⟨by decide, by decide⟩

/-- Claim C4: tokenizing the escaped body `"Infobox|Name=Foo|Population=100|Foo bar"`
yields name `Infobox` and data
`\x7bName: Foo, Population: 100, anon_1: Foo bar\x7d`; in general the segments are
processed strictly in body order (the dict is the in-order fold of one entry
per segment, a segment with `=` split at its first `=` into trimmed key and
value), and the 1-based anonymous counter increments only on segments lacking
`=`, so the anonymous keys are exactly `anon_<c+1>, anon_<c+2>, …`, contiguous
regardless of interleaved named parameters. -/
theorem C4_tokenizer_order_and_anon_numbering :
    tokenize (str "Infobox|Name=Foo|Population=100|Foo bar") =
      (str "Infobox",
        [(str "Name", str "Foo"), (str "Population", str "100"),
         (str "anon_1", str "Foo bar")]) ∧
    (∀ (segs : List Str) (c : ℕ) (d : Dict),
      tokenizeData segs c d =
        (segEntries segs c).foldl (fun d kv => dictInsert d kv.1 kv.2) d) ∧
    (∀ (segs : List Str) (c : ℕ),
      anonKeySeq segs c =
        (List.range (segs.countP (fun seg => (splitEq1 seg).isNone))).map
          (fun i => anonKey (c + i + 1))) :=
  ⟨by decide, tokenizeData_eq_foldl, anonKeySeq_eq⟩

/-- Claim C5: before the positional renumbering and the arity dispatch, the
coordinate resolver removes exactly those entries whose key or value contains
one of the reserved tokens `dim, globe, region, scale, source, type, display`
as a substring (`optStrip` equals the pointwise filter on any dict with
distinct keys — dicts always have distinct keys); in particular an entry with
key `display`, or one whose value contains `dim`, is excluded wherever it
sits. -/
theorem C5_optional_parameter_stripping :
    (∀ d : Dict, (d.map Prod.fst).Nodup →
      optStrip d = d.filter (fun kv => !(hasTokKV kv))) ∧
    optStrip [(str "anon_1", str "41"), (str "display", str "inline"),
        (str "anon_2", str "5dim6"), (str "anon_3", str "9.2")] =
      [(str "anon_1", str "41"), (str "anon_3", str "9.2")] := by
  constructor
  · intro d hnd
    unfold optStrip
    apply List.filter_congr
    intro kv hkv
    cases ht : hasTokKV kv with
    | true =>
      have hmem : kv.1 ∈ todelKeys d :=
        List.mem_map_of_mem (·.1) (List.mem_filter.mpr ⟨hkv, ht⟩)
      rw [List.any_eq_true.mpr ⟨kv.1, hmem, by simp⟩]
    | false =>
      have hnone : (todelKeys d).any (fun k => k == kv.1) = false := by
        refine List.any_eq_false.mpr fun k' hk' => ?_
        simp only [beq_iff_eq]
        intro hkeq
        obtain ⟨kv', hkv'mem, hfst⟩ := List.mem_map.mp hk'
        have hkv'd := (List.mem_filter.mp hkv'mem).1
        have hkv'tok := (List.mem_filter.mp hkv'mem).2
        have hkveq : kv' = kv :=
          keys_nodup_inj d hnd kv' hkv'd kv hkv (by rw [hfst, hkeq])
        rw [hkveq, ht] at hkv'tok
        exact absurd hkv'tok (by simp)
      rw [hnone]
  · decide

/-- Claim C5 witness: the pointwise-filter description instantiated at a
concrete dict. -/
theorem C5_witness :
    optStrip [(str "display", str "inline"), (str "anon_1", str "41")] =
      [(str "display", str "inline"), (str "anon_1", str "41")].filter
        (fun kv => !(hasTokKV kv)) :=
  C5_optional_parameter_stripping.1 _ (by decide)

/-- Claim C8 (counterexample): the link normalizer is not idempotent: on
`"[[[[A]]]]"` the first pass strips the inner-looking `[[…]]` match and yields
`"[[A]]"`, which a second pass reduces further to `"A"`. -/
theorem C8_counterexample :
    normalize (normalize (str "[[[[A]]]]")) ≠ normalize (str "[[[[A]]]]") := by
  decide

/-- Claim C8 (amended): on fragments where the reference markup parse of
`clean_ref` is a single text node — no `<` or `&` (no tags, no character
entities), none of the control whitespace an HTML parser may normalize, and
not blank: the domain on which the embedding of `clean_ref` is faithful — the
normalizer is idempotent whenever its first output contains no `[[`, is
nonempty, and carries no leading/trailing whitespace (already-clean text is
unchanged); in general the normalizer is not idempotent (see the
counterexample).  `cleanChars_normalize` proves the normalized output is again
markup-free, so the second pass stays inside the faithfully modelled
domain. -/
theorem C8_normalize_idempotent_amended (l : Str)
    (_h0 : cleanFragment l = true)
    (h1 : hasLL (normalize l) = false)
    (h2 : pyStrip (normalize l) = normalize l)
    (_h3 : normalize l ≠ []) :
    normalize (normalize l) = normalize l := by
  have hstep : normalize (normalize l) = clean_wiki_links (pyStrip (normalize l)) := rfl
  rw [hstep, h2, clean_wiki_links_of_no_LL _ h1]

/-- Claim C8 witness: the amended idempotence at a concrete clean string. -/
theorem C8_witness :
    normalize (normalize (str "See B and C")) = normalize (str "See B and C") :=
  C8_normalize_idempotent_amended _ (by decide) (by decide) (by decide) (by decide)

/-- Claim C9: the template-usage crawl filter keeps `User talk:` /
`Template talk:` titles (and even underscore-style `User_talk:` ones), because
the source's `skip_page` tuple lacks a comma after `'user_talk:'` — Python
fuses it with the following literal into `'user_talk:discussioni_utente:'` —
and its multi-word prefixes use underscores while listing-API titles contain
spaces; `User:`/`Utente:`/`Template:` titles are excluded as documented. -/
theorem C9_skip_filter_keeps_talk_pages :
    keptTitles [str "User talk:Alice", str "Template talk:Y", str "User_talk:Bob",
        str "User:Eve", str "Template:X", str "Utente:Rossi"] =
      [str "User talk:Alice", str "Template talk:Y", str "User_talk:Bob"] := by
  decide

/-- Claim C10: for wikitext containing a `coord` template with no anonymous
positional parameters left after optional-parameter stripping
(`"\x7b\x7bcoord|display=inline\x7d\x7d"`), the whole extraction aborts with the
`min() arg is an empty sequence` error instead of returning a result. -/
theorem C10_coord_without_positional_aborts :
    data_from_templates (str "\x7b\x7bcoord|display=inline\x7d\x7d") [] (fun _ => none) =
      .error .minEmpty := by
  decide

/-- Claim C3: for every coordinate input (each arity form, with arbitrary
numeric parameter strings and arbitrary direction strings that survive the
optional-token stripping), the decimal value equals
`degrees + minutes/60 + seconds/3600` with the omitted components taken as
`0`, a direction of exactly `"S"` negates the latitude and exactly `"W"`
negates the longitude, and any other direction value (including the absent
`""` of the 2-argument form) leaves the sign unchanged. -/
theorem C3_decimal_conversion :
    (∀ (s1 s2 : Str) (q1 q2 : ℚ),
      parseFloat s1 = some q1 → parseFloat s2 = some q2 →
      extract_data_from_coord [(str "anon_1", s1), (str "anon_2", s2)] =
        .ok ⟨q1, q2⟩) ∧
    (∀ (s1 d1 s2 d2 : Str) (q1 q2 : ℚ),
      parseFloat s1 = some q1 → parseFloat s2 = some q2 →
      hasTokStr d1 = false → hasTokStr d2 = false →
      extract_data_from_coord
          [(str "anon_1", s1), (str "anon_2", d1), (str "anon_3", s2),
           (str "anon_4", d2)] =
        .ok ⟨if d1 = str "S" then -q1 else q1,
             if d2 = str "W" then -q2 else q2⟩) ∧
    (∀ (s1 m1 d1 s2 m2 d2 : Str) (q1 r1 q2 r2 : ℚ),
      parseFloat s1 = some q1 → parseFloat m1 = some r1 →
      parseFloat s2 = some q2 → parseFloat m2 = some r2 →
      hasTokStr d1 = false → hasTokStr d2 = false →
      extract_data_from_coord
          [(str "anon_1", s1), (str "anon_2", m1), (str "anon_3", d1),
           (str "anon_4", s2), (str "anon_5", m2), (str "anon_6", d2)] =
        .ok ⟨if d1 = str "S" then -(q1 + r1 / 60) else q1 + r1 / 60,
             if d2 = str "W" then -(q2 + r2 / 60) else q2 + r2 / 60⟩) ∧
    (∀ (s1 m1 x1 d1 s2 m2 x2 d2 : Str) (q1 r1 u1 q2 r2 u2 : ℚ),
      parseFloat s1 = some q1 → parseFloat m1 = some r1 → parseFloat x1 = some u1 →
      parseFloat s2 = some q2 → parseFloat m2 = some r2 → parseFloat x2 = some u2 →
      hasTokStr d1 = false → hasTokStr d2 = false →
      extract_data_from_coord
          [(str "anon_1", s1), (str "anon_2", m1), (str "anon_3", x1),
           (str "anon_4", d1), (str "anon_5", s2), (str "anon_6", m2),
           (str "anon_7", x2), (str "anon_8", d2)] =
        .ok ⟨if d1 = str "S" then -(q1 + r1 / 60 + u1 / 3600)
             else q1 + r1 / 60 + u1 / 3600,
             if d2 = str "W" then -(q2 + r2 / 60 + u2 / 3600)
             else q2 + r2 / 60 + u2 / 3600⟩) := by
  refine ⟨?_, ?_, ?_, ?_⟩
  · intro s1 s2 q1 q2 h1 h2
    have e1 : hasTokKV (str "anon_1", s1) = false :=
      hasTokKV_false_of _ _ (by decide) (hasTokStr_false_of_float _ (parseFloat_chars _ _ h1))
    have e2 : hasTokKV (str "anon_2", s2) = false :=
      hasTokKV_false_of _ _ (by decide) (hasTokStr_false_of_float _ (parseFloat_chars _ _ h2))
    have hstrip : optStrip [(str "anon_1", s1), (str "anon_2", s2)] =
        [(str "anon_1", s1), (str "anon_2", s2)] := by
      apply optStrip_eq_self
      intro kv hkv
      rcases (by simpa using hkv :
        kv = (str "anon_1", s1) ∨ kv = (str "anon_2", s2)) with rfl | rfl
      · exact e1
      · exact e2
    have hanon : anonParsOf [(str "anon_1", s1), (str "anon_2", s2)] =
        [(str "anon_1", s1), (str "anon_2", s2)] := by
      unfold anonParsOf
      rw [hstrip]
      apply List.filter_eq_self.mpr
      intro kv hkv
      rcases (by simpa using hkv :
        kv = (str "anon_1", s1) ∨ kv = (str "anon_2", s2)) with rfl | rfl
      · show containsSub (str "anon_1") (str "anon_") = true
        decide
      · show containsSub (str "anon_2") (str "anon_") = true
        decide
    have hbp : buildPos [(str "anon_1", s1), (str "anon_2", s2)] [] =
        some [(1, s1), (2, s2)] := by
      simp [buildPos, zdictInsert,
        show parseAnonIdx (str "anon_1") = some 1 from by decide,
        show parseAnonIdx (str "anon_2") = some 2 from by decide]
    have hpn : ([(str "anon_1", s1), (str "anon_2", s2)] : Dict).filterMap
        (fun kv => parseAnonIdx kv.1) = [(1 : ℤ), 2] := by
      simp [List.filterMap_cons,
        show parseAnonIdx (str "anon_1") = some 1 from by decide,
        show parseAnonIdx (str "anon_2") = some 2 from by decide]
    unfold extract_data_from_coord
    rw [hanon, hbp, hpn, show listMin [(1 : ℤ), 2] = some 1 from by decide]
    simp only [List.length_cons, List.length_nil]
    simp [resolveArity, getPos, toFloat, zdictGet, h1, h2, Bind.bind, Except.bind,
      Pure.pure, Except.pure, str]
  · intro s1 d1 s2 d2 q1 q2 h1 h2 hd1 hd2
    have e1 : hasTokKV (str "anon_1", s1) = false :=
      hasTokKV_false_of _ _ (by decide) (hasTokStr_false_of_float _ (parseFloat_chars _ _ h1))
    have e2 : hasTokKV (str "anon_2", d1) = false :=
      hasTokKV_false_of _ _ (by decide) hd1
    have e3 : hasTokKV (str "anon_3", s2) = false :=
      hasTokKV_false_of _ _ (by decide) (hasTokStr_false_of_float _ (parseFloat_chars _ _ h2))
    have e4 : hasTokKV (str "anon_4", d2) = false :=
      hasTokKV_false_of _ _ (by decide) hd2
    have hstrip : optStrip
        [(str "anon_1", s1), (str "anon_2", d1), (str "anon_3", s2), (str "anon_4", d2)] =
        [(str "anon_1", s1), (str "anon_2", d1), (str "anon_3", s2), (str "anon_4", d2)] := by
      apply optStrip_eq_self
      intro kv hkv
      rcases (by simpa using hkv :
        kv = (str "anon_1", s1) ∨ kv = (str "anon_2", d1) ∨ kv = (str "anon_3", s2) ∨
          kv = (str "anon_4", d2)) with rfl | rfl | rfl | rfl
      · exact e1
      · exact e2
      · exact e3
      · exact e4
    have hanon : anonParsOf
        [(str "anon_1", s1), (str "anon_2", d1), (str "anon_3", s2), (str "anon_4", d2)] =
        [(str "anon_1", s1), (str "anon_2", d1), (str "anon_3", s2), (str "anon_4", d2)] := by
      unfold anonParsOf
      rw [hstrip]
      apply List.filter_eq_self.mpr
      intro kv hkv
      rcases (by simpa using hkv :
        kv = (str "anon_1", s1) ∨ kv = (str "anon_2", d1) ∨ kv = (str "anon_3", s2) ∨
          kv = (str "anon_4", d2)) with rfl | rfl | rfl | rfl
      · show containsSub (str "anon_1") (str "anon_") = true
        decide
      · show containsSub (str "anon_2") (str "anon_") = true
        decide
      · show containsSub (str "anon_3") (str "anon_") = true
        decide
      · show containsSub (str "anon_4") (str "anon_") = true
        decide
    have hbp : buildPos
        [(str "anon_1", s1), (str "anon_2", d1), (str "anon_3", s2), (str "anon_4", d2)] [] =
        some [(1, s1), (2, d1), (3, s2), (4, d2)] := by
      simp [buildPos, zdictInsert,
        show parseAnonIdx (str "anon_1") = some 1 from by decide,
        show parseAnonIdx (str "anon_2") = some 2 from by decide,
        show parseAnonIdx (str "anon_3") = some 3 from by decide,
        show parseAnonIdx (str "anon_4") = some 4 from by decide]
    have hpn : ([(str "anon_1", s1), (str "anon_2", d1), (str "anon_3", s2),
        (str "anon_4", d2)] : Dict).filterMap (fun kv => parseAnonIdx kv.1) =
        [(1 : ℤ), 2, 3, 4] := by
      simp [List.filterMap_cons,
        show parseAnonIdx (str "anon_1") = some 1 from by decide,
        show parseAnonIdx (str "anon_2") = some 2 from by decide,
        show parseAnonIdx (str "anon_3") = some 3 from by decide,
        show parseAnonIdx (str "anon_4") = some 4 from by decide]
    unfold extract_data_from_coord
    rw [hanon, hbp, hpn, show listMin [(1 : ℤ), 2, 3, 4] = some 1 from by decide]
    simp only [List.length_cons, List.length_nil]
    simp [resolveArity, getPos, toFloat, zdictGet, h1, h2, Bind.bind, Except.bind,
      Pure.pure, Except.pure]
  · intro s1 m1 d1 s2 m2 d2 q1 r1 q2 r2 h1 hm1 h2 hm2 hd1 hd2
    have e1 : hasTokKV (str "anon_1", s1) = false :=
      hasTokKV_false_of _ _ (by decide) (hasTokStr_false_of_float _ (parseFloat_chars _ _ h1))
    have e2 : hasTokKV (str "anon_2", m1) = false :=
      hasTokKV_false_of _ _ (by decide) (hasTokStr_false_of_float _ (parseFloat_chars _ _ hm1))
    have e3 : hasTokKV (str "anon_3", d1) = false :=
      hasTokKV_false_of _ _ (by decide) hd1
    have e4 : hasTokKV (str "anon_4", s2) = false :=
      hasTokKV_false_of _ _ (by decide) (hasTokStr_false_of_float _ (parseFloat_chars _ _ h2))
    have e5 : hasTokKV (str "anon_5", m2) = false :=
      hasTokKV_false_of _ _ (by decide) (hasTokStr_false_of_float _ (parseFloat_chars _ _ hm2))
    have e6 : hasTokKV (str "anon_6", d2) = false :=
      hasTokKV_false_of _ _ (by decide) hd2
    have hstrip : optStrip
        [(str "anon_1", s1), (str "anon_2", m1), (str "anon_3", d1),
         (str "anon_4", s2), (str "anon_5", m2), (str "anon_6", d2)] =
        [(str "anon_1", s1), (str "anon_2", m1), (str "anon_3", d1),
         (str "anon_4", s2), (str "anon_5", m2), (str "anon_6", d2)] := by
      apply optStrip_eq_self
      intro kv hkv
      rcases (by simpa using hkv :
        kv = (str "anon_1", s1) ∨ kv = (str "anon_2", m1) ∨ kv = (str "anon_3", d1) ∨
          kv = (str "anon_4", s2) ∨ kv = (str "anon_5", m2) ∨ kv = (str "anon_6", d2)) with
        rfl | rfl | rfl | rfl | rfl | rfl
      · exact e1
      · exact e2
      · exact e3
      · exact e4
      · exact e5
      · exact e6
    have hanon : anonParsOf
        [(str "anon_1", s1), (str "anon_2", m1), (str "anon_3", d1),
         (str "anon_4", s2), (str "anon_5", m2), (str "anon_6", d2)] =
        [(str "anon_1", s1), (str "anon_2", m1), (str "anon_3", d1),
         (str "anon_4", s2), (str "anon_5", m2), (str "anon_6", d2)] := by
      unfold anonParsOf
      rw [hstrip]
      apply List.filter_eq_self.mpr
      intro kv hkv
      rcases (by simpa using hkv :
        kv = (str "anon_1", s1) ∨ kv = (str "anon_2", m1) ∨ kv = (str "anon_3", d1) ∨
          kv = (str "anon_4", s2) ∨ kv = (str "anon_5", m2) ∨ kv = (str "anon_6", d2)) with
        rfl | rfl | rfl | rfl | rfl | rfl
      · show containsSub (str "anon_1") (str "anon_") = true
        decide
      · show containsSub (str "anon_2") (str "anon_") = true
        decide
      · show containsSub (str "anon_3") (str "anon_") = true
        decide
      · show containsSub (str "anon_4") (str "anon_") = true
        decide
      · show containsSub (str "anon_5") (str "anon_") = true
        decide
      · show containsSub (str "anon_6") (str "anon_") = true
        decide
    have hbp : buildPos
        [(str "anon_1", s1), (str "anon_2", m1), (str "anon_3", d1),
         (str "anon_4", s2), (str "anon_5", m2), (str "anon_6", d2)] [] =
        some [(1, s1), (2, m1), (3, d1), (4, s2), (5, m2), (6, d2)] := by
      simp [buildPos, zdictInsert,
        show parseAnonIdx (str "anon_1") = some 1 from by decide,
        show parseAnonIdx (str "anon_2") = some 2 from by decide,
        show parseAnonIdx (str "anon_3") = some 3 from by decide,
        show parseAnonIdx (str "anon_4") = some 4 from by decide,
        show parseAnonIdx (str "anon_5") = some 5 from by decide,
        show parseAnonIdx (str "anon_6") = some 6 from by decide]
    have hpn : ([(str "anon_1", s1), (str "anon_2", m1), (str "anon_3", d1),
        (str "anon_4", s2), (str "anon_5", m2), (str "anon_6", d2)] : Dict).filterMap
        (fun kv => parseAnonIdx kv.1) = [(1 : ℤ), 2, 3, 4, 5, 6] := by
      simp [List.filterMap_cons,
        show parseAnonIdx (str "anon_1") = some 1 from by decide,
        show parseAnonIdx (str "anon_2") = some 2 from by decide,
        show parseAnonIdx (str "anon_3") = some 3 from by decide,
        show parseAnonIdx (str "anon_4") = some 4 from by decide,
        show parseAnonIdx (str "anon_5") = some 5 from by decide,
        show parseAnonIdx (str "anon_6") = some 6 from by decide]
    unfold extract_data_from_coord
    rw [hanon, hbp, hpn, show listMin [(1 : ℤ), 2, 3, 4, 5, 6] = some 1 from by decide]
    simp only [List.length_cons, List.length_nil]
    simp [resolveArity, getPos, toFloat, zdictGet, h1, hm1, h2, hm2, Bind.bind,
      Except.bind, Pure.pure, Except.pure]
  · intro s1 m1 x1 d1 s2 m2 x2 d2 q1 r1 u1 q2 r2 u2 h1 hm1 hx1 h2 hm2 hx2 hd1 hd2
    have e1 : hasTokKV (str "anon_1", s1) = false :=
      hasTokKV_false_of _ _ (by decide) (hasTokStr_false_of_float _ (parseFloat_chars _ _ h1))
    have e2 : hasTokKV (str "anon_2", m1) = false :=
      hasTokKV_false_of _ _ (by decide) (hasTokStr_false_of_float _ (parseFloat_chars _ _ hm1))
    have e3 : hasTokKV (str "anon_3", x1) = false :=
      hasTokKV_false_of _ _ (by decide) (hasTokStr_false_of_float _ (parseFloat_chars _ _ hx1))
    have e4 : hasTokKV (str "anon_4", d1) = false :=
      hasTokKV_false_of _ _ (by decide) hd1
    have e5 : hasTokKV (str "anon_5", s2) = false :=
      hasTokKV_false_of _ _ (by decide) (hasTokStr_false_of_float _ (parseFloat_chars _ _ h2))
    have e6 : hasTokKV (str "anon_6", m2) = false :=
      hasTokKV_false_of _ _ (by decide) (hasTokStr_false_of_float _ (parseFloat_chars _ _ hm2))
    have e7 : hasTokKV (str "anon_7", x2) = false :=
      hasTokKV_false_of _ _ (by decide) (hasTokStr_false_of_float _ (parseFloat_chars _ _ hx2))
    have e8 : hasTokKV (str "anon_8", d2) = false :=
      hasTokKV_false_of _ _ (by decide) hd2
    have hstrip : optStrip
        [(str "anon_1", s1), (str "anon_2", m1), (str "anon_3", x1), (str "anon_4", d1),
         (str "anon_5", s2), (str "anon_6", m2), (str "anon_7", x2), (str "anon_8", d2)] =
        [(str "anon_1", s1), (str "anon_2", m1), (str "anon_3", x1), (str "anon_4", d1),
         (str "anon_5", s2), (str "anon_6", m2), (str "anon_7", x2), (str "anon_8", d2)] := by
      apply optStrip_eq_self
      intro kv hkv
      rcases (by simpa using hkv :
        kv = (str "anon_1", s1) ∨ kv = (str "anon_2", m1) ∨ kv = (str "anon_3", x1) ∨
          kv = (str "anon_4", d1) ∨ kv = (str "anon_5", s2) ∨ kv = (str "anon_6", m2) ∨
          kv = (str "anon_7", x2) ∨ kv = (str "anon_8", d2)) with
        rfl | rfl | rfl | rfl | rfl | rfl | rfl | rfl
      · exact e1
      · exact e2
      · exact e3
      · exact e4
      · exact e5
      · exact e6
      · exact e7
      · exact e8
    have hanon : anonParsOf
        [(str "anon_1", s1), (str "anon_2", m1), (str "anon_3", x1), (str "anon_4", d1),
         (str "anon_5", s2), (str "anon_6", m2), (str "anon_7", x2), (str "anon_8", d2)] =
        [(str "anon_1", s1), (str "anon_2", m1), (str "anon_3", x1), (str "anon_4", d1),
         (str "anon_5", s2), (str "anon_6", m2), (str "anon_7", x2), (str "anon_8", d2)] := by
      unfold anonParsOf
      rw [hstrip]
      apply List.filter_eq_self.mpr
      intro kv hkv
      rcases (by simpa using hkv :
        kv = (str "anon_1", s1) ∨ kv = (str "anon_2", m1) ∨ kv = (str "anon_3", x1) ∨
          kv = (str "anon_4", d1) ∨ kv = (str "anon_5", s2) ∨ kv = (str "anon_6", m2) ∨
          kv = (str "anon_7", x2) ∨ kv = (str "anon_8", d2)) with
        rfl | rfl | rfl | rfl | rfl | rfl | rfl | rfl
      · show containsSub (str "anon_1") (str "anon_") = true
        decide
      · show containsSub (str "anon_2") (str "anon_") = true
        decide
      · show containsSub (str "anon_3") (str "anon_") = true
        decide
      · show containsSub (str "anon_4") (str "anon_") = true
        decide
      · show containsSub (str "anon_5") (str "anon_") = true
        decide
      · show containsSub (str "anon_6") (str "anon_") = true
        decide
      · show containsSub (str "anon_7") (str "anon_") = true
        decide
      · show containsSub (str "anon_8") (str "anon_") = true
        decide
    have hbp : buildPos
        [(str "anon_1", s1), (str "anon_2", m1), (str "anon_3", x1), (str "anon_4", d1),
         (str "anon_5", s2), (str "anon_6", m2), (str "anon_7", x2), (str "anon_8", d2)] [] =
        some [(1, s1), (2, m1), (3, x1), (4, d1), (5, s2), (6, m2), (7, x2), (8, d2)] := by
      simp [buildPos, zdictInsert,
        show parseAnonIdx (str "anon_1") = some 1 from by decide,
        show parseAnonIdx (str "anon_2") = some 2 from by decide,
        show parseAnonIdx (str "anon_3") = some 3 from by decide,
        show parseAnonIdx (str "anon_4") = some 4 from by decide,
        show parseAnonIdx (str "anon_5") = some 5 from by decide,
        show parseAnonIdx (str "anon_6") = some 6 from by decide,
        show parseAnonIdx (str "anon_7") = some 7 from by decide,
        show parseAnonIdx (str "anon_8") = some 8 from by decide]
    have hpn : ([(str "anon_1", s1), (str "anon_2", m1), (str "anon_3", x1),
        (str "anon_4", d1), (str "anon_5", s2), (str "anon_6", m2), (str "anon_7", x2),
        (str "anon_8", d2)] : Dict).filterMap (fun kv => parseAnonIdx kv.1) =
        [(1 : ℤ), 2, 3, 4, 5, 6, 7, 8] := by
      simp [List.filterMap_cons,
        show parseAnonIdx (str "anon_1") = some 1 from by decide,
        show parseAnonIdx (str "anon_2") = some 2 from by decide,
        show parseAnonIdx (str "anon_3") = some 3 from by decide,
        show parseAnonIdx (str "anon_4") = some 4 from by decide,
        show parseAnonIdx (str "anon_5") = some 5 from by decide,
        show parseAnonIdx (str "anon_6") = some 6 from by decide,
        show parseAnonIdx (str "anon_7") = some 7 from by decide,
        show parseAnonIdx (str "anon_8") = some 8 from by decide]
    unfold extract_data_from_coord
    rw [hanon, hbp, hpn,
      show listMin [(1 : ℤ), 2, 3, 4, 5, 6, 7, 8] = some 1 from by decide]
    simp only [List.length_cons, List.length_nil]
    simp [resolveArity, getPos, toFloat, zdictGet, h1, hm1, hx1, h2, hm2, hx2,
      Bind.bind, Except.bind, Pure.pure, Except.pure]

/-- Claim C3 witness: the 4-argument form at degrees 41, `"S"`, 12, `"W"`
yields latitude `-41` and longitude `-12`. -/
theorem C3_witness :
    extract_data_from_coord [(str "anon_1", str "41"), (str "anon_2", str "S"),
        (str "anon_3", str "12"), (str "anon_4", str "W")] = .ok ⟨-41, -12⟩ := by
  have h := C3_decimal_conversion.2.1 (str "41") (str "S") (str "12") (str "W") 41 12
    (by decide) (by decide) (by decide) (by decide)
  simpa using h

/-- Claim C6: a missing or non-numeric required positional coordinate value
makes the resolver — and therefore the whole extraction — fail with a
propagated error rather than silently defaulting: concretely, extraction from
`"\x7b\x7bcoord|abc|9.2\x7d\x7d"` is the `float` parse error; in general, whenever some
offset the arity dispatch must read is absent from the renumbered positional
map, or parses to no number, `extract_data_from_coord` returns an error. -/
theorem C6_conversion_error_propagates :
    (data_from_templates (str "\x7b\x7bcoord|abc|9.2\x7d\x7d") [] (fun _ => none) =
      .error .floatParse) ∧
    (∀ (t : Dict) (pos : ZDict) (sp : ℤ),
      buildPos (anonParsOf t) [] = some pos →
      listMin ((anonParsOf t).filterMap (fun kv => parseAnonIdx kv.1)) = some sp →
      ((∃ off ∈ requiredOffsets (anonParsOf t).length, zdictGet pos (sp + off) = none) ∨
       (∃ off ∈ numericOffsets (anonParsOf t).length,
         ∃ v, zdictGet pos (sp + off) = some v ∧ parseFloat v = none)) →
      ∃ e, extract_data_from_coord t = .error e) := by
  refine ⟨by decide, ?_⟩
  intro t pos sp hbp hmin hfail
  cases hres : extract_data_from_coord t with
  | error e => exact ⟨e, rfl⟩
  | ok c =>
    exfalso
    have hra : resolveArity pos (anonParsOf t).length sp = .ok c := by
      simp only [extract_data_from_coord, hbp, hmin] at hres
      exact hres
    have hreads := resolveArity_ok_reads pos _ sp c hra
    rcases hfail with ⟨off, hoffmem, hnone⟩ | ⟨off, hoffmem, v, hv, hnoparse⟩
    · obtain ⟨v, hv, _⟩ := hreads off hoffmem
      rw [hnone] at hv
      exact Option.noConfusion hv
    · obtain ⟨v', hv', hnum⟩ := hreads off (numeric_subset_required _ off hoffmem)
      rw [hv] at hv'
      obtain ⟨q, hq⟩ := hnum hoffmem
      have hveq : v = v' := by injection hv'
      rw [← hveq, hnoparse] at hq
      exact Option.noConfusion hq

/-- Claim C6 witness: a non-numeric first positional value makes the resolver
error. -/
theorem C6_witness :
    ∃ e, extract_data_from_coord [(str "anon_1", str "x"), (str "anon_2", str "1")] =
      .error e :=
  C6_conversion_error_propagates.2 [(str "anon_1", str "x"), (str "anon_2", str "1")]
    [(1, str "x"), (2, str "1")] 1 (by decide) (by decide)
    (Or.inr ⟨0, by decide, str "x", by decide, by decide⟩)

/-- Claim C7: a DMS parse failure in the auxiliary coordinate augmenter is
swallowed locally: the data mapping is returned unmodified, and — for an
always-failing parser — the whole extraction behaves exactly as if no extra
coordinate configuration had been supplied, so the augmenter never aborts the
overall extraction. -/
theorem C7_augment_failure_swallowed :
    (∀ (p : List Str → Option (Str × Str)) (data : Dict) (groups : List (List Str)),
      p (groups.flatten.map (fun f => (dictGet data f).getD [])) = none →
      augment_data_with_coords p data groups = data) ∧
    (∀ (w : Str) (extra : List (Str × List (List Str)))
        (p : List Str → Option (Str × Str)),
      (∀ vs, p vs = none) →
      data_from_templates w extra p = data_from_templates w [] (fun _ => none)) := by
  refine ⟨augment_none, fun w extra p hp => ?_⟩
  unfold data_from_templates
  exact mapM_congr _ _ _ (fun span _ => processSpan_noparse extra p hp span)

/-- Claim C7 witness: the failure-swallowing branch at a concrete dict and
field group. -/
theorem C7_witness :
    augment_data_with_coords (fun _ => none) [(str "latd", str "45")] [[str "latd"]] =
      [(str "latd", str "45")] :=
  C7_augment_failure_swallowed.1 (fun _ => none) _ _ rfl

end WTP
